import Mathlib

/-!
Verification of the real-time media pipeline of the KinetiQ app.

This file gives a shallow embedding, in Lean 4, of the numeric and
control-flow kernels of the repository:

* `audioResample` — the microphone resampler of `components/LiveCoach.tsx`
  (quantization to 16-bit PCM, nearest-neighbour decimation);
* the inbound playback scheduler and its barge-in (interruption) handling
  from the `onmessage` callback of `LiveCoach.tsx`;
* the two-tier device-acquisition fallback of `enableCamera` and the audio
  tap guard of the `onopen` callback;
* the timeline monitor (`monitorFrames`) and smart-play toggle of the
  result page;
* the annotation label placer of `drawAnnotationsOnCanvas` in
  `services/geminiService.ts`;
* the per-timestamp visualization loop of `handleAnalyze` in `App.tsx`.

JavaScript numbers are embedded as exact rationals (`ℚ`); the write of a
number into an `Int16Array` is embedded by `jsToInt16` (truncation toward
zero followed by 16-bit two's-complement wrap, the ECMAScript `ToInt16`
conversion).
-/

namespace KinetiQ

/-! ## Resampler (`audioResample`, LiveCoach.tsx) -/

/-- Truncation of a rational toward zero, the ECMAScript `ToIntegerOrInfinity`
step for finite values. -/
def ratTrunc (q : ℚ) : ℤ :=
  if 0 ≤ q then ⌊q⌋ else ⌈q⌉

/-- Wrap an integer into the signed 16-bit range, the way a JavaScript
`Int16Array` element store does. -/
def wrap16 (n : ℤ) : ℤ :=
  let m := n % 65536
  if m < 32768 then m else m - 65536

/-- The ECMAScript `ToInt16` conversion applied to a (finite) number:
truncate toward zero, then reduce modulo 2^16 into `[-32768, 32767]`. -/
def jsToInt16 (q : ℚ) : ℤ :=
  wrap16 (ratTrunc q)

/-- The output length of the decimation branch of `audioResample`:
`Math.ceil(buffer.length / (sampleRate / 16000))`. -/
def resampleLength (len sampleRate : ℕ) : ℕ :=
  (len * 16000 + sampleRate - 1) / sampleRate

/-- The source index read for output index `i` in the decimation branch:
`Math.floor(i * (sampleRate / 16000))`. -/
def resampleIndex (i sampleRate : ℕ) : ℕ :=
  i * sampleRate / 16000

/-- Embedding of `audioResample` from `components/LiveCoach.tsx`.

```js
const targetRate = 16000;
if (sampleRate === targetRate) {
    const res = new Int16Array(buffer.length);
    for (let i = 0; i < buffer.length; i++) res[i] = buffer[i] * 32768;
    return res;
}
const ratio = sampleRate / targetRate;
const newLength = Math.ceil(buffer.length / ratio);
const res = new Int16Array(newLength);
for (let i = 0; i < newLength; i++) {
    const originalIndex = Math.floor(i * ratio);
    const val = Math.max(-1, Math.min(1, buffer[originalIndex] || 0));
    res[i] = val * 32768;
}
return res;
```

An out-of-range read yields `0` (`buffer[idx] || 0`; in the variant without
`|| 0` the chain `undefined → NaN → ToInt16` also stores `0`), embedded by
`List.getD _ _ 0`. -/
def audioResample (buffer : List ℚ) (sampleRate : ℕ) : List ℤ :=
  if sampleRate = 16000 then
    buffer.map (fun x => jsToInt16 (x * 32768))
  else
    (List.range (resampleLength buffer.length sampleRate)).map (fun i =>
      let v := buffer.getD (resampleIndex i sampleRate) 0
      jsToInt16 (max (-1) (min 1 v) * 32768))

/-- The per-sample quantization that the specification describes for the
equal-rate branch: `round(sample * 32767)`, clamped to `[-32768, 32767]`.
Written from the spec's words, to be compared with `audioResample`. -/
def specQuant (x : ℚ) : ℤ :=
  max (-32768) (min 32767 (round (x * 32767)))

/-! ## Playback scheduler (`onmessage` audio handling, LiveCoach.tsx)

```js
const now = ctx.currentTime;
if (nextStartTimeRef.current < now) nextStartTimeRef.current = now;
const source = ctx.createBufferSource();
source.start(nextStartTimeRef.current);
nextStartTimeRef.current += audioBuffer.duration;
audioSourcesRef.current.add(source);
source.onended = () => { audioSourcesRef.current.delete(source); ... };

if (message.serverContent?.interrupted) {
  audioSourcesRef.current.forEach(s => s.stop());
  audioSourcesRef.current.clear();
  nextStartTimeRef.current = 0;
}
```
-/

/-- A scheduled output buffer: its assigned start time and its duration. -/
structure ScheduledSource where
  start : ℚ
  duration : ℚ
deriving DecidableEq, Repr

/-- The playback scheduler's mutable state: `nextStartTimeRef` and the set
`audioSourcesRef` of sources that have not yet finished playing (a source
removes itself from the set in its `onended` callback). -/
structure PlayerSched where
  nextStart : ℚ
  sources : List ScheduledSource
deriving DecidableEq, Repr

/-- Scheduling one inbound buffer of duration `dur` at output-clock time
`now`: the new state and the start time assigned to the buffer. -/
def scheduleBuffer (now dur : ℚ) (st : PlayerSched) : PlayerSched × ℚ :=
  let start := max st.nextStart now
  (⟨start + dur, st.sources ++ [⟨start, dur⟩]⟩, start)

/-- Scheduling a batch of buffer durations, all delivered at clock time
`now`; returns the final state and the list of assigned start times. -/
def scheduleAll (now : ℚ) (st : PlayerSched) :
    List ℚ → PlayerSched × List ℚ
  | [] => (st, [])
  | d :: ds =>
      let p := scheduleBuffer now d st
      let q := scheduleAll now p.1 ds
      (q.1, p.2 :: q.2)

/-- A source's `onended` completion: it deletes itself from the set. -/
def finishSource (s : ScheduledSource) (st : PlayerSched) : PlayerSched :=
  ⟨st.nextStart, st.sources.erase s⟩

/-- The `interrupted` branch of `onmessage`: stop every not-yet-finished
source, clear the set, and write `0` into `nextStartTimeRef`. -/
def interruptFlush (_st : PlayerSched) : PlayerSched :=
  ⟨0, []⟩

/-! ## Device acquisition fallback (`enableCamera` / `onopen`, LiveCoach.tsx) -/

/-- A `MediaStream` as far as this component inspects it: the number of
audio tracks it carries (`getAudioTracks().length`). -/
structure MediaStream where
  audioTracks : ℕ
deriving DecidableEq, Repr

/-- Outcome of one `getUserMedia` request: a stream, or a rejection carrying
the DOM error name. -/
inductive GumResult where
  | ok (s : MediaStream)
  | err (name : String)
deriving DecidableEq, Repr

/-- The component state that `enableCamera` / `handleStreamSuccess` write. -/
structure CamState where
  stream : Option MediaStream
  isCameraEnabled : Bool
  audioInputAvailable : Bool
  error : Option String
  permissionError : Bool
deriving DecidableEq, Repr

/-- `handleStreamSuccess(stream, hasAudio)`: store the stream, mark the
camera enabled, clear the errors, record audio availability. -/
def handleStreamSuccess (s : MediaStream) (hasAudio : Bool) : CamState :=
  ⟨some s, true, hasAudio, none, false⟩

/-- Embedding of `enableCamera`: first request audio+video (`att1`); on
failure retry video-only (`att2`); on a second failure map the DOM error
name to a user-facing message. `att1`/`att2` are the outcomes the browser
would deliver for the two requests. -/
def enableCamera (att1 att2 : GumResult) : CamState :=
  match att1 with
  | GumResult.ok s => handleStreamSuccess s true
  | GumResult.err _ =>
      match att2 with
      | GumResult.ok s => handleStreamSuccess s false
      | GumResult.err n =>
          let msg :=
            if n = "NotAllowedError" ∨ n = "PermissionDeniedError" then
              "Access denied. Please reset permissions."
            else if n = "NotFoundError" then "No camera found."
            else if n = "NotReadableError" then "Camera in use by another app."
            else "Camera Error: " ++ n
          ⟨none, false, true, some msg,
           n = "NotAllowedError" ∨ n = "PermissionDeniedError"⟩

/-- The guard in the `onopen` callback under which the audio tap (script
processor and per-block packet sending) is created:
`audioInputAvailable && streamRef.current` and then
`getAudioTracks().length > 0`. -/
def audioTapOpened (c : CamState) : Bool :=
  c.audioInputAvailable &&
    (match c.stream with
     | some s => decide (0 < s.audioTracks)
     | none => false)

/-! ## Timeline monitor (`monitorFrames`, ResultPage)

```js
const currentTime = video.currentTime;
const prevTime = lastCheckTimeRef.current;
if (currentTime < prevTime - 0.5) {
  analysisResult.timestamps.forEach(t => {
    if (t.timestamp > currentTime) processedTimestamps.current.delete(t.timestamp);
  });
}
const match = analysisResult.timestamps.find(t => {
  const targetTime = t.timestamp;
  return prevTime <= targetTime && currentTime >= targetTime
      && !processedTimestamps.current.has(t.timestamp);
});
if (match) {
  video.pause();
  video.currentTime = match.timestamp;
  processedTimestamps.current.add(match.timestamp);
  setCurrentDisplayFeedback({ ... });
  if (resumeTimerRef.current) clearTimeout(resumeTimerRef.current);
  resumeTimerRef.current = window.setTimeout(() => { ... }, 3000);
}
lastCheckTimeRef.current = currentTime;
```
-/

/-- One timeline event: its timestamp and (opaque) feedback payload. -/
structure TEvent where
  timestamp : ℚ
  payload : ℕ
deriving DecidableEq, Repr

/-- The monitor's persistent refs: `lastCheckTimeRef` and the set
`processedTimestamps` (consumed-event timestamps). -/
structure MonitorState where
  lastCheckTime : ℚ
  processed : List ℚ
deriving DecidableEq, Repr

/-- The half-second backward-seek threshold. -/
def half : ℚ := 1/2

/-- The backward-seek branch: delete from the consumed set the timestamp of
every event whose timestamp exceeds `curr`. -/
def clearBackward (events : List TEvent) (curr : ℚ)
    (processed : List ℚ) : List ℚ :=
  processed.filter fun ts =>
    decide (∀ e ∈ events, e.timestamp = ts → e.timestamp ≤ curr)

/-- The consumed set a tick works with after the (possible) backward-seek
clearing. -/
def tickProcessed (events : List TEvent) (st : MonitorState)
    (curr : ℚ) : List ℚ :=
  if curr < st.lastCheckTime - half then
    clearBackward events curr st.processed
  else st.processed

/-- Everything one tick of `monitorFrames` does. `presented` is the payload
newly handed to `setCurrentDisplayFeedback` (`none` = untouched). -/
structure TickResult where
  state : MonitorState
  triggered : Option TEvent
  pausedVideo : Bool
  seekTo : Option ℚ
  presented : Option ℕ
  armedTimer : Bool
deriving DecidableEq, Repr

/-- One tick of `monitorFrames`, at observed playback position `curr`. -/
def monitorTick (events : List TEvent) (st : MonitorState)
    (curr : ℚ) : TickResult :=
  let prev := st.lastCheckTime
  let processed1 := tickProcessed events st curr
  match events.find? (fun e =>
      decide (prev ≤ e.timestamp ∧ e.timestamp ≤ curr ∧
        e.timestamp ∉ processed1)) with
  | some e =>
      ⟨⟨curr, e.timestamp :: processed1⟩, some e, true, some e.timestamp,
       some e.payload, true⟩
  | none => ⟨⟨curr, processed1⟩, none, false, none, none, false⟩

/-- Run the monitor over a sequence of observed positions, collecting the
triggered events in order. -/
def runMonitor (events : List TEvent) :
    MonitorState → List ℚ → MonitorState × List TEvent
  | st, [] => (st, [])
  | st, c :: cs =>
      let r := monitorTick events st c
      let rest := runMonitor events r.state cs
      (rest.1, match r.triggered with
               | some e => e :: rest.2
               | none => rest.2)

/-- The three-event timeline of the review scenarios. -/
def evs3 : List TEvent := [⟨2, 0⟩, ⟨5, 1⟩, ⟨9, 2⟩]

/-! ## Result page as a state machine (smart-play toggle, dwell timer) -/

/-- The result page's playback-relevant state: the smart-play flag, whether
the video is paused, the last seek/tick position, the monitor refs, the
presented feedback payload, and whether a 3-second dwell timer is armed. -/
structure PageState where
  enabled : Bool
  paused : Bool
  position : ℚ
  monitor : MonitorState
  presented : Option ℕ
  timerPending : Bool
deriving DecidableEq, Repr

/-- The events that can act on the page state: a monitor tick at an
observed position, the dwell timer firing, the SMART COACH toggle button,
and the user's manual resume/pause on the video element. -/
inductive PageAct where
  | tick (curr : ℚ)
  | timerFire
  | toggleSmartPlay
  | manualResume
  | manualPause
deriving DecidableEq, Repr

/-- One transition of the result page.

* `tick`: `monitorFrames` returns immediately when the monitor is disabled
  or the video is paused; otherwise it runs `monitorTick`, and a match
  pauses the video, seeks to the match, presents the payload and (re)arms
  the dwell timer.
* `timerFire`: a still-armed dwell timer clears the presented payload and,
  if smart-play is enabled and the video paused, resumes playback; a
  cancelled timer never fires (identity).
* `toggleSmartPlay`: turning the monitor off clears the presented payload
  and cancels any pending timer (button handler); turning it on also
  cancels a pending timer (the effect cleanup re-runs on every toggle).
* `manualResume` / `manualPause`: the user driving the video controls. -/
def pageStep (events : List TEvent) (s : PageState) : PageAct → PageState
  | PageAct.tick curr =>
      if ¬ s.enabled ∨ s.paused then s
      else
        let r := monitorTick events s.monitor curr
        match r.triggered with
        | some e =>
            { s with
              paused := true
              position := e.timestamp
              monitor := r.state
              presented := some e.payload
              timerPending := true }
        | none =>
            { s with
              position := curr
              monitor := r.state }
  | PageAct.timerFire =>
      if s.timerPending then
        { s with
          presented := none
          timerPending := false
          paused := if s.enabled ∧ s.paused then false else s.paused }
      else s
  | PageAct.toggleSmartPlay =>
      if s.enabled then
        { s with
          enabled := false
          presented := none
          timerPending := false }
      else
        { s with
          enabled := true
          timerPending := false }
  | PageAct.manualResume => { s with paused := false }
  | PageAct.manualPause => { s with paused := true }

/-- Run a sequence of page actions. -/
def runPage (events : List TEvent) (s : PageState) : List PageAct → PageState
  | [] => s
  | a :: acts => runPage events (pageStep events s a) acts

/-! ## Annotation placer (`drawAnnotationsOnCanvas`, geminiService.ts)

```js
const fontSize = Math.max(10, Math.floor(height * 0.022));
const padding = Math.floor(width * 0.012);
const arrowOffset = Math.floor(width * 0.1);
const targetX = (item.x / 100) * width;
const targetY = (item.y / 100) * height;
const boxTotalWidth = textW + padding * 2;
const boxTotalHeight = textH + padding * 2;
if (side === 'left') {
  boxX2 = targetX - arrowOffset; boxX1 = boxX2 - boxTotalWidth;
  if (boxX1 < 5) { boxX1 = 5; boxX2 = boxX1 + boxTotalWidth; }
  arrowStartX = boxX2;
} else {
  boxX1 = targetX + arrowOffset; boxX2 = boxX1 + boxTotalWidth;
  if (boxX2 > width - 5) { boxX2 = width - 5; boxX1 = boxX2 - boxTotalWidth; }
  arrowStartX = boxX1;
}
let boxY1 = targetY - (textH / 2) - padding;
if (boxY1 < 5) boxY1 = 5;
if (boxY1 + boxTotalHeight > height - 5) boxY1 = height - boxTotalHeight - 5;
const boxY2 = boxY1 + boxTotalHeight;
// arrow from (arrowStartX, boxY1 + boxTotalHeight / 2) to (targetX, targetY)
```
-/

/-- `Math.max(10, Math.floor(height * 0.022))`. -/
def annFontSize (height : ℚ) : ℚ :=
  max 10 ((⌊height * (22/1000)⌋ : ℤ) : ℚ)

/-- `Math.floor(width * 0.012)`. -/
def annPadding (width : ℚ) : ℚ :=
  ((⌊width * (12/1000)⌋ : ℤ) : ℚ)

/-- `Math.floor(width * 0.1)` — the fixed connector length. -/
def annArrowOffset (width : ℚ) : ℚ :=
  ((⌊width * (1/10)⌋ : ℤ) : ℚ)

/-- Total label-box height `textH + 2 * padding` (textH is the font size). -/
def annBoxH (width height : ℚ) : ℚ :=
  annFontSize height + 2 * annPadding width

/-- The geometry computed for one annotation. -/
structure AnnPlacement where
  boxX1 : ℚ
  boxX2 : ℚ
  boxY1 : ℚ
  boxY2 : ℚ
  arrowStartX : ℚ
  arrowStartY : ℚ
  targetX : ℚ
  targetY : ℚ
deriving DecidableEq, Repr

/-- Label-box and connector placement for one annotation with normalized
target `(x, y)` (percent), measured text width `textW`, and preferred
`side` (the code treats any side other than `"left"` as right). -/
def placeLabelBox (width height textW x y : ℚ)
    (side : String) : AnnPlacement :=
  let padding := annPadding width
  let arrowOffset := annArrowOffset width
  let targetX := x / 100 * width
  let targetY := y / 100 * height
  let boxW := textW + 2 * padding
  let boxH := annBoxH width height
  let horiz : ℚ × ℚ × ℚ :=
    if side = "left" then
      let bX2 := targetX - arrowOffset
      let bX1 := bX2 - boxW
      if bX1 < 5 then (5, 5 + boxW, 5 + boxW) else (bX1, bX2, bX2)
    else
      let bX1 := targetX + arrowOffset
      let bX2 := bX1 + boxW
      if bX2 > width - 5 then (width - 5 - boxW, width - 5, width - 5 - boxW)
      else (bX1, bX2, bX1)
  let y1a := targetY - annFontSize height / 2 - padding
  let y1b := if y1a < 5 then 5 else y1a
  let boxY1 := if y1b + boxH > height - 5 then height - boxH - 5 else y1b
  ⟨horiz.1, horiz.2.1, boxY1, boxY1 + boxH, horiz.2.2, boxY1 + boxH / 2,
   targetX, targetY⟩

/-! ## Per-timestamp visualization loop (`handleAnalyze`, App.tsx)

```js
const updatedTimestamps = [];
for (let i = 0; i < result.timestamps.length; i++) {
  const ts = result.timestamps[i];
  ...
  try {
    const visualImage = await generateVisualCorrection(...);
    updatedTimestamps.push({ ...ts, visualImage });
  } catch (vErr) {
    updatedTimestamps.push(ts); // Fallback
  }
}
```
-/

/-- A timestamped analysis entry, as far as the loop inspects it. -/
structure TsEntry where
  timestamp : ℚ
  issue : String
deriving DecidableEq, Repr

/-- An entry after the visualization pass: the original entry, possibly
extended with a rendered `visualImage`. -/
structure TsEntryOut where
  base : TsEntry
  visualImage : Option String
deriving DecidableEq, Repr

/-- The visualization loop of `handleAnalyze`: `viz` is the per-entry
pipeline `generateVisualCorrection` (coordinate extraction + rendering),
`none` meaning it threw. A success pushes the annotated entry, a failure
pushes the entry unannotated; the loop itself never aborts. -/
def handleAnalyzeViz (viz : TsEntry → Option String)
    (l : List TsEntry) : List TsEntryOut :=
  l.map fun ts =>
    match viz ts with
    | some img => ⟨ts, some img⟩
    | none => ⟨ts, none⟩

/-- A demonstration per-entry visualization pipeline that throws exactly on
the entry with timestamp 2. -/
def vizDemo : TsEntry → Option String :=
  fun ts => if ts.timestamp = 2 then none else some "img"

/-! ## Theorems -/

/-- Auxiliary: an output index of the decimation branch always maps to a
source index strictly below the source length. -/
lemma resampleIndex_lt_of_lt_length {len s i : ℕ} (hs : 0 < s)
    (hi : i < resampleLength len s) : resampleIndex i s < len := by
  unfold resampleLength at hi
  unfold resampleIndex
  have h1 : (i + 1) * s ≤ len * 16000 + s - 1 :=
    (Nat.le_div_iff_mul_le hs).mp (Nat.succ_le_of_lt hi)
  have h2 : (i + 1) * s = i * s + s := by ring
  have h3 : i * s < len * 16000 := by omega
  exact (Nat.div_lt_iff_lt_mul (by norm_num : (0:ℕ) < 16000)).mpr h3

/-- C1 (counterexample): on the input list `[1.0]` at source rate 16000, the
code returns `[-32768]` (truncate-and-wrap 16-bit store of `1 * 32768`),
while the claimed quantization `round(sample * 32767)` clamped to
`[-32768, 32767]` yields `32767`. -/
theorem resample_equal_rate_claim_false :
    audioResample [(1 : ℚ)] 16000 = [(-32768 : ℤ)] ∧
    specQuant 1 = 32767 ∧ ((-32768 : ℤ) ≠ 32767) := by
  refine ⟨?_, by norm_num [specQuant], by decide⟩
  simp only [audioResample, if_pos rfl, List.map_cons, List.map_nil]
  norm_num [jsToInt16, ratTrunc, wrap16]

/-- C1 (amended): when the source rate equals the target rate 16000, the
output has the same length as the input and the `i`-th element is the
ECMAScript `ToInt16` conversion of `input[i] * 32768`, i.e. truncation
toward zero followed by a 16-bit two's-complement wrap (so `1.0` maps to
`-32768`); no rounding and no clamping to `32767` is performed. -/
theorem resample_equal_rate_quantizes (buffer : List ℚ) :
    (audioResample buffer 16000).length = buffer.length ∧
    ∀ i, i < buffer.length →
      (audioResample buffer 16000).getD i 0 =
        jsToInt16 (buffer.getD i 0 * 32768) := by
  constructor
  · simp [audioResample]
  · intro i hi
    unfold audioResample
    rw [if_pos rfl, List.getD_eq_getElem?_getD, List.getElem?_map,
      List.getElem?_eq_getElem hi, List.getD_eq_getElem?_getD,
      List.getElem?_eq_getElem hi]
    rfl

/-- Witness for `resample_equal_rate_quantizes` at the concrete input
`[1, -1/2]`, index `0`. -/
theorem resample_equal_rate_quantizes_witness :
    (0 : ℕ) < 2 ∧
    (audioResample [(1 : ℚ), -1/2] 16000).getD 0 0 =
      jsToInt16 ((1 : ℚ) * 32768) :=
  ⟨by decide, (resample_equal_rate_quantizes [1, -1/2]).2 0 (by decide)⟩

/-- C2: in the decimation branch (source rate ≠ 16000, positive), the output
has length `ceil(len * 16000 / sourceRate)`, every output index `i` reads the
source index `floor(i * sourceRate / 16000)`, and that source index is
always strictly below the source length — the read is never out of bounds
(so the `buffer[idx] || 0` fallback is never exercised). -/
theorem resample_decimation_in_bounds (buffer : List ℚ) (s : ℕ)
    (hs : 0 < s) (hne : s ≠ 16000) :
    (audioResample buffer s).length = resampleLength buffer.length s ∧
    (∀ i, i < resampleLength buffer.length s →
       resampleIndex i s < buffer.length) ∧
    (∀ i, i < resampleLength buffer.length s →
       (audioResample buffer s).getD i 0 =
         jsToInt16 (max (-1) (min 1 (buffer.getD (resampleIndex i s) 0))
           * 32768)) := by
  refine ⟨?_, ?_, ?_⟩
  · simp [audioResample, hne]
  · intro i hi
    exact resampleIndex_lt_of_lt_length hs hi
  · intro i hi
    unfold audioResample
    rw [if_neg hne, List.getD_eq_getElem?_getD, List.getElem?_map,
      List.getElem?_range hi]
    rfl

/-- Witness for `resample_decimation_in_bounds`: a seven-sample buffer at
source rate 48000 (ratio 3) yields three output samples, each reading a
valid source index. -/
theorem resample_decimation_in_bounds_witness :
    (0 < 48000 ∧ 48000 ≠ 16000) ∧ resampleIndex 2 48000 < 7 :=
  ⟨⟨by decide, by decide⟩,
   (resample_decimation_in_bounds [0, 1/10, 2/10, 3/10, 4/10, 5/10, 6/10]
     48000 (by decide) (by decide)).2.1 2 (by decide)⟩

/-- C3: each new buffer of duration `d` is assigned
`start = max(nextStart, now)` and then `nextStart = start + d`; in
particular buffers of durations `[1, 0.5, 2]` delivered together at clock
time `now` receive the starts `[t0, t0 + 1, t0 + 1.5]` with
`t0 = max(nextStart, now) ≥ now` — back-to-back and non-overlapping. -/
theorem playback_back_to_back :
    (∀ (now d : ℚ) (st : PlayerSched),
       (scheduleBuffer now d st).2 = max st.nextStart now ∧
       (scheduleBuffer now d st).1.nextStart = max st.nextStart now + d) ∧
    (∀ (now : ℚ) (st : PlayerSched),
       (scheduleAll now st [1, 1/2, 2]).2 =
         [max st.nextStart now, max st.nextStart now + 1,
          max st.nextStart now + 3/2] ∧
       now ≤ max st.nextStart now) := by
  constructor
  · intro now d st
    exact ⟨rfl, rfl⟩
  · intro now st
    have h0 : now ≤ max st.nextStart now := le_max_right _ _
    refine ⟨?_, h0⟩
    simp only [scheduleAll, scheduleBuffer]
    rw [max_eq_left (by linarith : now ≤ max st.nextStart now + 1),
      max_eq_left (by linarith : now ≤ max st.nextStart now + 1 + 1/2)]
    norm_num
    ring

/-- C4 (counterexample): the interruption handler writes `0` into
`nextStart`, not the current output-clock time; for a session whose output
clock reads `6/5` at the moment of the interruption, `nextStart` afterwards
is `0 ≠ 6/5`. -/
theorem interrupt_claim_false :
    (interruptFlush ⟨5/2, [⟨3/2, 1⟩]⟩).nextStart = 0 ∧
    ((0 : ℚ) ≠ 6/5) := by
  exact ⟨rfl, by norm_num⟩

/-- C4 (amended): on an `Interrupted` event the handler stops and discards
every source not yet finished playing (the pending set becomes empty) and
resets `nextStart` to `0`; since a later buffer is scheduled at
`max(nextStart, now)`, any buffer submitted after the interruption starts
exactly at the (non-negative) current clock time — hence at a time ≥ the
clock, not at its previously queued position. -/
theorem interrupt_flush_behavior :
    (∀ st : PlayerSched,
       (interruptFlush st).sources = [] ∧ (interruptFlush st).nextStart = 0) ∧
    (∀ (st : PlayerSched) (now d : ℚ), 0 ≤ now →
       (scheduleBuffer now d (interruptFlush st)).2 = now) := by
  constructor
  · intro st
    exact ⟨rfl, rfl⟩
  · intro st now d h
    simp only [scheduleBuffer, interruptFlush]
    exact max_eq_right h

/-- Witness for `interrupt_flush_behavior`: after flushing a state whose
queue had a buffer scheduled at `3/2`, a buffer submitted at clock time
`6/5` starts at `6/5`. -/
theorem interrupt_flush_behavior_witness :
    (0 : ℚ) ≤ 6/5 ∧
    (scheduleBuffer (6/5) 1 (interruptFlush ⟨5/2, [⟨3/2, 1⟩]⟩)).2 = 6/5 :=
  ⟨by norm_num,
   interrupt_flush_behavior.2 ⟨5/2, [⟨3/2, 1⟩]⟩ (6/5) 1 (by norm_num)⟩

/-- C5: whenever the combined audio+video request fails (any error name)
and the video-only retry succeeds (any stream), the session records
`audioInputAvailable = false`, never opens an audio tap (so no script
processor and no per-block audio packet sending exists), reports no error,
and still has the camera enabled — it does not fail solely because audio
is missing. -/
theorem video_only_fallback_disables_audio (e : String) (s : MediaStream) :
    (enableCamera (GumResult.err e) (GumResult.ok s)).audioInputAvailable
        = false ∧
    audioTapOpened (enableCamera (GumResult.err e) (GumResult.ok s))
        = false ∧
    (enableCamera (GumResult.err e) (GumResult.ok s)).error = none ∧
    (enableCamera (GumResult.err e) (GumResult.ok s)).isCameraEnabled
        = true := by
  refine ⟨rfl, ?_, rfl, rfl⟩
  simp [enableCamera, handleStreamSuccess, audioTapOpened]

/-- Auxiliary: on a list sorted by timestamp, `find?` returns a satisfying
element of minimal timestamp. -/
lemma find?_min_timestamp (p : TEvent → Bool) (l : List TEvent) :
    ∀ e : TEvent, l.Pairwise (fun a b => a.timestamp ≤ b.timestamp) →
      l.find? p = some e →
      ∀ e' ∈ l, p e' = true → e.timestamp ≤ e'.timestamp := by
  induction l with
  | nil => intro e _ h; simp at h
  | cons a t ih =>
      intro e hs h e' he' hpe'
      rw [List.pairwise_cons] at hs
      by_cases hpa : p a = true
      · rw [List.find?_cons_of_pos _ hpa] at h
        injection h with h
        subst h
        rcases List.mem_cons.mp he' with h1 | h1
        · subst h1; exact le_refl _
        · exact hs.1 _ h1
      · rw [List.find?_cons_of_neg _ (by simpa using hpa)] at h
        rcases List.mem_cons.mp he' with h1 | h1
        · subst h1; exact absurd hpe' hpa
        · exact ih e hs.2 h e' h1 hpe'

/-- C6: on a tick from `prev` to `curr` over timestamp-sorted events, the
triggered event (there is at most one — it is an `Option`) is an unconsumed
event with timestamp in the closed interval `[prev, curr]` of minimal
timestamp among such; the tick pauses the video, seeks exactly to the
event's timestamp, marks it consumed, presents its payload and arms the
dwell timer. Scrubbing forward through positions 1..10 over events at
timestamps [2, 5, 9] triggers each event exactly once, in order. -/
theorem monitor_tick_selects_earliest :
    (∀ (events : List TEvent) (st : MonitorState) (curr : ℚ) (e : TEvent),
       events.Pairwise (fun a b => a.timestamp ≤ b.timestamp) →
       (monitorTick events st curr).triggered = some e →
       e ∈ events ∧
       st.lastCheckTime ≤ e.timestamp ∧ e.timestamp ≤ curr ∧
       e.timestamp ∉ tickProcessed events st curr ∧
       (∀ e' ∈ events, st.lastCheckTime ≤ e'.timestamp →
          e'.timestamp ≤ curr →
          e'.timestamp ∉ tickProcessed events st curr →
          e.timestamp ≤ e'.timestamp) ∧
       (monitorTick events st curr).pausedVideo = true ∧
       (monitorTick events st curr).seekTo = some e.timestamp ∧
       (monitorTick events st curr).state.processed
           = e.timestamp :: tickProcessed events st curr ∧
       (monitorTick events st curr).presented = some e.payload ∧
       (monitorTick events st curr).armedTimer = true) ∧
    runMonitor evs3 ⟨0, []⟩ [1, 2, 3, 4, 5, 6, 7, 8, 9, 10]
      = (⟨10, [9, 5, 2]⟩, [⟨2, 0⟩, ⟨5, 1⟩, ⟨9, 2⟩]) := by
  constructor
  · intro events st curr e hs htrig
    simp only [monitorTick] at htrig
    rcases hEq : events.find? (fun e =>
        decide (st.lastCheckTime ≤ e.timestamp ∧ e.timestamp ≤ curr ∧
          e.timestamp ∉ tickProcessed events st curr)) with _ | e₀
    · rw [hEq] at htrig; simp at htrig
    · rw [hEq] at htrig
      simp only [Option.some.injEq] at htrig
      subst htrig
      have hmem := List.mem_of_find?_eq_some hEq
      have hp := List.find?_some hEq
      simp only [decide_eq_true_eq] at hp
      refine ⟨hmem, hp.1, hp.2.1, hp.2.2, ?_, ?_, ?_, ?_, ?_, ?_⟩
      · intro e' he' h1 h2 h3
        exact find?_min_timestamp _ events e₀ hs hEq e' he'
          (decide_eq_true ⟨h1, h2, h3⟩)
      all_goals simp only [monitorTick, hEq]
  · norm_num [runMonitor, monitorTick, tickProcessed, clearBackward,
      evs3, half, List.find?]

/-- Witness for `monitor_tick_selects_earliest`: at the tick from position
1 to 2 with no event consumed, event `(2, payload 0)` triggers and the tick
pauses the video. -/
theorem monitor_tick_selects_earliest_witness :
    (evs3.Pairwise (fun a b => a.timestamp ≤ b.timestamp) ∧
     (monitorTick evs3 ⟨1, []⟩ 2).triggered = some ⟨2, 0⟩) ∧
    (monitorTick evs3 ⟨1, []⟩ 2).pausedVideo = true := by
  have hs : evs3.Pairwise (fun a b => a.timestamp ≤ b.timestamp) := by
    norm_num [evs3]
  have ht : (monitorTick evs3 ⟨1, []⟩ 2).triggered = some ⟨2, 0⟩ := by
    norm_num [monitorTick, tickProcessed, clearBackward, evs3, half,
      List.find?]
  exact ⟨⟨hs, ht⟩,
    (monitor_tick_selects_earliest.1 evs3 ⟨1, []⟩ 2 ⟨2, 0⟩ hs
      ht).2.2.2.2.2.1⟩

/-- C7: on a tick with `curr < prev - 0.5`, the consumed flag is cleared on
exactly the events whose timestamp exceeds `curr` (an event's timestamp
stays consumed iff it was consumed and is `≤ curr`), entries matching no
event are untouched, and no event triggers on that tick. -/
theorem monitor_backward_seek_clears (events : List TEvent)
    (st : MonitorState) (curr : ℚ)
    (h : curr < st.lastCheckTime - half) :
    (∀ e ∈ events,
       (e.timestamp ∈ (monitorTick events st curr).state.processed ↔
        e.timestamp ∈ st.processed ∧ e.timestamp ≤ curr)) ∧
    (∀ ts ∈ st.processed, (∀ e ∈ events, e.timestamp ≠ ts) →
       ts ∈ (monitorTick events st curr).state.processed) ∧
    (monitorTick events st curr).triggered = none := by
  have hhalf : (0 : ℚ) < half := by norm_num [half]
  have hnone : events.find? (fun e =>
      decide (st.lastCheckTime ≤ e.timestamp ∧ e.timestamp ≤ curr ∧
        e.timestamp ∉ tickProcessed events st curr)) = none := by
    rw [List.find?_eq_none]
    intro e _
    simp only [decide_eq_true_eq, not_and]
    intro h1 h2
    exact absurd (le_trans h1 h2) (by linarith)
  have hproc : tickProcessed events st curr
      = clearBackward events curr st.processed := by
    rw [tickProcessed, if_pos h]
  have hstate : (monitorTick events st curr).state.processed
      = clearBackward events curr st.processed := by
    simp only [monitorTick, hnone]
    exact hproc
  refine ⟨?_, ?_, ?_⟩
  · intro e he
    rw [hstate, clearBackward, List.mem_filter]
    constructor
    · rintro ⟨h1, h2⟩
      exact ⟨h1, of_decide_eq_true h2 e he rfl⟩
    · rintro ⟨h1, h2⟩
      refine ⟨h1, decide_eq_true ?_⟩
      intro e' _ he'
      rw [he']
      exact h2
  · intro ts hts hno
    rw [hstate, clearBackward, List.mem_filter]
    refine ⟨hts, decide_eq_true ?_⟩
    intro e' he' habs
    exact absurd habs (hno e' he')
  · simp only [monitorTick, hnone]

/-- Witness for `monitor_backward_seek_clears`: seeking from position 3
back to 1 clears the consumed flag of the event at timestamp 2. -/
theorem monitor_backward_seek_clears_witness :
    ((1 : ℚ) < (3 : ℚ) - half) ∧
    ((2 : ℚ) ∈ (monitorTick evs3 ⟨3, [2]⟩ 1).state.processed ↔
      (2 : ℚ) ∈ [(2 : ℚ)] ∧ (2 : ℚ) ≤ 1) := by
  have hlt : (1 : ℚ) < (3 : ℚ) - half := by norm_num [half]
  exact ⟨hlt,
    (monitor_backward_seek_clears evs3 ⟨3, [2]⟩ 1 hlt).1 ⟨2, 0⟩
      (List.mem_cons_self _ _)⟩

/-- Auxiliary: every page action other than the user's manual resume
preserves "paused, nothing presented, no timer pending". -/
lemma pageStep_preserves (events : List TEvent) (s : PageState) (a : PageAct)
    (ha : a ≠ PageAct.manualResume)
    (h1 : s.paused = true) (h2 : s.presented = none)
    (h3 : s.timerPending = false) :
    (pageStep events s a).paused = true ∧
    (pageStep events s a).presented = none ∧
    (pageStep events s a).timerPending = false := by
  cases a with
  | tick curr => simp [pageStep, h1, h2, h3]
  | timerFire => simp [pageStep, h1, h2, h3]
  | toggleSmartPlay =>
      by_cases he : s.enabled = true <;> simp [pageStep, he, h1, h2, h3]
  | manualResume => exact absurd rfl ha
  | manualPause => simp [pageStep, h1, h2, h3]

/-- Auxiliary: the preservation lemma extended over an action trace without
a manual resume. -/
lemma runPage_preserves (events : List TEvent) :
    ∀ (acts : List PageAct) (s : PageState),
      PageAct.manualResume ∉ acts →
      s.paused = true → s.presented = none → s.timerPending = false →
      (runPage events s acts).paused = true ∧
      (runPage events s acts).presented = none ∧
      (runPage events s acts).timerPending = false := by
  intro acts
  induction acts with
  | nil => intro s _ h1 h2 h3; exact ⟨h1, h2, h3⟩
  | cons a t ih =>
      intro s hna h1 h2 h3
      have hne : a ≠ PageAct.manualResume := by
        intro h; exact hna (h ▸ List.mem_cons_self _ _)
      have hnt : PageAct.manualResume ∉ t := by
        intro h; exact hna (List.mem_cons_of_mem _ h)
      have hstep := pageStep_preserves events s a hne h1 h2 h3
      simpa [runPage] using
        ih (pageStep events s a) hnt hstep.1 hstep.2.1 hstep.2.2

/-- C8: toggling smart play off while the 3-second dwell timer is pending
(video paused mid-dwell) immediately clears the presented payload, cancels
the pending auto-resume and disables the monitor; afterwards, under any
sequence of ticks, timer expirations, further toggles and manual pauses —
anything except a manual resume — the video stays paused and nothing is
ever presented again (no auto-resume ever fires). -/
theorem toggle_off_cancels_dwell (events : List TEvent) (s : PageState)
    (hEn : s.enabled = true) (hPaused : s.paused = true)
    (_hTimer : s.timerPending = true) :
    (pageStep events s PageAct.toggleSmartPlay).presented = none ∧
    (pageStep events s PageAct.toggleSmartPlay).timerPending = false ∧
    (pageStep events s PageAct.toggleSmartPlay).enabled = false ∧
    ∀ acts : List PageAct, PageAct.manualResume ∉ acts →
      (runPage events (pageStep events s PageAct.toggleSmartPlay)
        acts).paused = true ∧
      (runPage events (pageStep events s PageAct.toggleSmartPlay)
        acts).presented = none := by
  have hs : pageStep events s PageAct.toggleSmartPlay =
      { s with enabled := false, presented := none, timerPending := false } := by
    simp [pageStep, hEn]
  refine ⟨by rw [hs], by rw [hs], by rw [hs], ?_⟩
  intro acts hna
  have h := runPage_preserves events acts
    (pageStep events s PageAct.toggleSmartPlay) hna
    (by rw [hs]; exact hPaused) (by rw [hs]) (by rw [hs])
  exact ⟨h.1, h.2.1⟩

/-- Witness for `toggle_off_cancels_dwell`: a session paused mid-dwell at
position 5 stays paused through a tick, a spurious timer event and a manual
pause after the toggle. -/
theorem toggle_off_cancels_dwell_witness :
    ((⟨true, true, 5, ⟨5, [5]⟩, some 1, true⟩ : PageState).enabled = true ∧
     (⟨true, true, 5, ⟨5, [5]⟩, some 1, true⟩ : PageState).paused = true ∧
     (⟨true, true, 5, ⟨5, [5]⟩, some 1, true⟩ : PageState).timerPending
       = true) ∧
    (runPage evs3
      (pageStep evs3 ⟨true, true, 5, ⟨5, [5]⟩, some 1, true⟩
        PageAct.toggleSmartPlay)
      [PageAct.tick 6, PageAct.timerFire, PageAct.manualPause]).paused
      = true :=
  ⟨⟨rfl, rfl, rfl⟩,
   ((toggle_off_cancels_dwell evs3 ⟨true, true, 5, ⟨5, [5]⟩, some 1, true⟩
       rfl rfl rfl).2.2.2
     [PageAct.tick 6, PageAct.timerFire, PageAct.manualPause]
     (by simp)).1⟩

/-- C9: the label box is clamped into the frame with margin 5. With
preferred side `"left"`, the final box left edge is always ≥ the margin
and the connector starts at the (possibly clamped) box right edge; with
any other side the box right edge is ≤ `width - margin` and the connector
starts at the box left edge. Vertically the box is centered on the
target's y whenever no clamp is needed, and — provided the box fits
between the margins — both edges stay inside them. -/
theorem annotation_box_clamped (width height textW x y : ℚ) (side : String)
    (hfit : annBoxH width height ≤ height - 10) :
    (side = "left" →
       5 ≤ (placeLabelBox width height textW x y side).boxX1 ∧
       (placeLabelBox width height textW x y side).arrowStartX
         = (placeLabelBox width height textW x y side).boxX2) ∧
    (side ≠ "left" →
       (placeLabelBox width height textW x y side).boxX2 ≤ width - 5 ∧
       (placeLabelBox width height textW x y side).arrowStartX
         = (placeLabelBox width height textW x y side).boxX1) ∧
    (5 ≤ (placeLabelBox width height textW x y side).boxY1 ∧
     (placeLabelBox width height textW x y side).boxY2 ≤ height - 5) ∧
    (5 ≤ y / 100 * height - annFontSize height / 2 - annPadding width →
     y / 100 * height + annFontSize height / 2 + annPadding width
       ≤ height - 5 →
     (placeLabelBox width height textW x y side).boxY1
         + annBoxH width height / 2 = y / 100 * height) := by
  have hBoxH : annBoxH width height = annFontSize height
      + 2 * annPadding width := rfl
  simp only [placeLabelBox]
  refine ⟨?_, ?_, ?_, ?_⟩
  · intro hside
    subst hside
    rw [if_pos rfl]
    split_ifs with h <;> exact ⟨by dsimp only; linarith, rfl⟩
  · intro hside
    rw [if_neg hside]
    split_ifs with h <;> exact ⟨by dsimp only; linarith, rfl⟩
  · constructor <;> split_ifs with h1 h2 <;> linarith
  · intro hlo hhi
    have h1 : ¬ (y / 100 * height - annFontSize height / 2
        - annPadding width < 5) := by linarith
    rw [if_neg h1]
    have h2 : ¬ (height - 5 < y / 100 * height - annFontSize height / 2
        - annPadding width + annBoxH width height) := by
      rw [hBoxH]; linarith
    rw [if_neg h2]
    rw [hBoxH]
    ring

/-- Witness for `annotation_box_clamped`: on a 1000×800 frame, a target at
x = 10% with side `"left"` is clamped to the left margin and the connector
stays anchored to the box edge. -/
theorem annotation_box_clamped_witness :
    annBoxH 1000 800 ≤ 800 - 10 ∧
    (5 ≤ (placeLabelBox 1000 800 100 10 50 "left").boxX1 ∧
     (placeLabelBox 1000 800 100 10 50 "left").arrowStartX
       = (placeLabelBox 1000 800 100 10 50 "left").boxX2) := by
  have hfit : annBoxH 1000 800 ≤ 800 - 10 := by
    norm_num [annBoxH, annFontSize, annPadding]
  exact ⟨hfit,
    (annotation_box_clamped 1000 800 100 10 50 "left" hfit).1 rfl⟩

/-- C10: the visualization loop preserves the length and order of the
timestamp list; the `i`-th output is the `i`-th input annotated when its
own pipeline run succeeds and the unannotated `i`-th input when it fails —
one entry's failure never disturbs the other entries and never aborts the
batch. -/
theorem viz_batch_robust (viz : TsEntry → Option String) (l : List TsEntry) :
    (handleAnalyzeViz viz l).length = l.length ∧
    ∀ i, i < l.length →
      (handleAnalyzeViz viz l).getD i ⟨⟨0, ""⟩, none⟩ =
        ⟨l.getD i ⟨0, ""⟩, viz (l.getD i ⟨0, ""⟩)⟩ := by
  constructor
  · simp [handleAnalyzeViz]
  · intro i hi
    unfold handleAnalyzeViz
    rw [List.getD_eq_getElem?_getD, List.getElem?_map,
      List.getElem?_eq_getElem hi, List.getD_eq_getElem?_getD,
      List.getElem?_eq_getElem hi]
    simp only [Option.map_some, Option.getD_some]
    cases hv : viz l[i] <;> simp [hv]

/-- Witness for `viz_batch_robust`: in a three-entry batch where the
pipeline throws exactly on the middle entry (timestamp 2), that entry comes
out unannotated in place. -/
theorem viz_batch_robust_witness :
    (1 : ℕ) < 3 ∧
    (handleAnalyzeViz vizDemo
        [⟨1, "a"⟩, ⟨2, "b"⟩, ⟨3, "c"⟩]).getD 1 ⟨⟨0, ""⟩, none⟩ =
      ⟨⟨2, "b"⟩, none⟩ := by
  refine ⟨by norm_num, ?_⟩
  have h := (viz_batch_robust vizDemo [⟨1, "a"⟩, ⟨2, "b"⟩, ⟨3, "c"⟩]).2 1
    (by norm_num)
  rw [h]
  norm_num [vizDemo]

end KinetiQ
